import Mathlib

/-!
A shallow embedding of the trash subsystem of `os_explorer.py`
(`ensure_trash`, `cmd_rm`, `cmd_restore`), verified against the
repository's specification.

The filesystem is modelled as an association list from absolute,
normalised path strings to entries; every OS call resolves its path
argument through `abspath` (posixpath semantics, `os.sep = "/"`),
mirroring how the kernel resolves relative paths against the process
working directory.  The `os.path` string helpers used by the code
(`basename`, `split`, `splitext`, `join`, `normpath`, `str.split`,
`str.strip`, `str.rstrip`) are translated character by character from
CPython's `posixpath` module.  OS-level rename failures that the map
model cannot represent (cross-device links, permissions) are exposed
through an explicit `renameOk` oracle, matching the `try/except`
around `os.rename` in the source.
-/

/-- Python `str.startswith` for a single candidate. -/
def pyStartsWith (s pre : String) : Bool := pre.data.isPrefixOf s.data

/-- Python `str.endswith` for a single candidate. -/
def pyEndsWith (s suf : String) : Bool := suf.data.isSuffixOf s.data

/-- Python `str.strip()` with no argument: drop whitespace at both ends. -/
def pyStrip (s : String) : String :=
  String.mk (((s.data.dropWhile Char.isWhitespace).reverse.dropWhile Char.isWhitespace).reverse)

/-- Python `str.rstrip(os.sep)`: drop trailing `/` characters. -/
def rstripSlash (s : String) : String :=
  String.mk ((s.data.reverse.dropWhile (fun c => c = '/')).reverse)

/-- Split a character list at every occurrence of `c`; the list of the
resulting fragments is never empty.  This is `str.split(c)` on the
character level and also drives the manifest's line decomposition. -/
def splitCh (c : Char) : List Char → List (List Char)
  | [] => [[]]
  | x :: xs =>
    if x = c then [] :: splitCh c xs
    else
      match splitCh c xs with
      | [] => [[x]]
      | l :: ls => (x :: l) :: ls

/-- Split at the first occurrence of `c`, if any. -/
def splitFirst (c : Char) : List Char → Option (List Char × List Char)
  | [] => none
  | x :: xs =>
    if x = c then some ([], xs)
    else
      match splitFirst c xs with
      | some (a, b) => some (x :: a, b)
      | none => none

/-- Python `line.split("\t", 2)`: at most two splits, so the result has
between one and three fields and any further tabs stay inside the
third field. -/
def pySplitTab2 (s : String) : List String :=
  match splitFirst '\t' s.data with
  | none => [s]
  | some (a, rest) =>
    match splitFirst '\t' rest with
    | none => [String.mk a, String.mk rest]
    | some (b, rest2) => [String.mk a, String.mk b, String.mk rest2]

/-- `posixpath.basename`: everything after the last `/`. -/
def osBasename (p : String) : String :=
  String.mk ((p.data.reverse.takeWhile (fun c => ¬ c = '/')).reverse)

/-- `posixpath.split`: head and tail around the last `/`, the head
stripped of trailing slashes unless it consists only of slashes. -/
def osSplit (p : String) : String × String :=
  let rev := p.data.reverse
  let tailRev := rev.takeWhile (fun c => ¬ c = '/')
  let headRaw := (rev.drop tailRev.length).reverse
  let tl := String.mk tailRev.reverse
  let hd :=
    if headRaw ≠ [] ∧ headRaw.any (fun c => ¬ c = '/') then
      String.mk ((headRaw.reverse.dropWhile (fun c => c = '/')).reverse)
    else String.mk headRaw
  (hd, tl)

/-- Index of the last occurrence of `c`, as `rfind` would report it. -/
def lastIdxOf (c : Char) (cs : List Char) : Option Nat :=
  match cs.reverse.findIdx? (fun x => x = c) with
  | some j => some (cs.length - 1 - j)
  | none => none

/-- The index right after the last `/`, i.e. `rfind(sep) + 1` in
`posixpath.splitext` (zero when there is no separator). -/
def extSepBound (cs : List Char) : Nat :=
  match lastIdxOf '/' cs with
  | some i => i + 1
  | none => 0

/-- `posixpath.splitext`: split off the extension at the last dot of
the final component, except when that component is all leading dots. -/
def osSplitext (p : String) : String × String :=
  let cs := p.data
  match lastIdxOf '.' cs with
  | some d =>
    if extSepBound cs ≤ d ∧
        ((cs.drop (extSepBound cs)).take (d - extSepBound cs)).any (fun c => ¬ c = '.') then
      (String.mk (cs.take d), String.mk (cs.drop d))
    else (p, "")
  | none => (p, "")

/-- `posixpath.isabs`. -/
def isAbs (p : String) : Bool := pyStartsWith p "/"

/-- `posixpath.join` for two arguments. -/
def osPathJoin (a b : String) : String :=
  if isAbs b then b
  else if a = "" ∨ pyEndsWith a "/" then a ++ b
  else a ++ "/" ++ b

/-- One step of `posixpath.normpath`'s component accumulation loop. -/
def normpathStep (initialSlashes : Nat) (acc : List String) (comp : String) : List String :=
  if comp = "" ∨ comp = "." then acc
  else if comp ≠ ".." ∨ (initialSlashes = 0 ∧ acc = []) ∨ acc.getLastD "" = ".." then
    acc ++ [comp]
  else if acc ≠ [] then acc.dropLast
  else acc

/-- `posixpath.normpath`: collapse `//`, `.` and `..` segments. -/
def normpath (p : String) : String :=
  if p = "" then "." else
  let initialSlashes : Nat :=
    if pyStartsWith p "/" then
      if pyStartsWith p "//" ∧ ¬ pyStartsWith p "///" then 2 else 1
    else 0
  let comps := (splitCh '/' p.data).map String.mk
  let newComps := comps.foldl (normpathStep initialSlashes) []
  let joined := String.intercalate "/" newComps
  let res := String.mk (List.replicate initialSlashes '/') ++ joined
  if res = "" then "." else res

/-- `posixpath.abspath` with the working directory made explicit. -/
def abspath (cwd p : String) : String := normpath (osPathJoin cwd p)

/-- `TRASH_NAME` from the source. -/
def TRASH_NAME : String := ".trash"

/-- `MANIFEST_NAME` from the source. -/
def MANIFEST_NAME : String := "manifest.tsv"

/-- The single header line `ensure_trash` writes into a fresh manifest. -/
def MANIFEST_HEADER : String := "# epoch\ttrashed_path\toriginal_abs_path\n"

/-- A filesystem entry: a file with its byte content, or a directory
whose whole subtree is abstracted into an opaque payload (moves are
atomic on entries, so a rename carries the payload unchanged). -/
inductive Entry where
  | file (content : String)
  | dir (payload : String)
deriving DecidableEq

/-- The filesystem: bindings from absolute normalised paths to entries. -/
abbrev FS : Type := List (String × Entry)

/-- Look up the entry bound to `key`, first binding wins. -/
def FS.find : FS → String → Option Entry
  | [], _ => none
  | (k, e) :: rest, key => if k = key then some e else FS.find rest key

/-- Remove every binding of `key`. -/
def FS.erase : FS → String → FS
  | [], _ => []
  | (k, e) :: rest, key => if k = key then FS.erase rest key else (k, e) :: FS.erase rest key

/-- Bind `key` to `e`, replacing any previous binding. -/
def FS.set (fs : FS) (key : String) (e : Entry) : FS := (key, e) :: FS.erase fs key

/-- `os.path.exists`, resolving the path against the working directory. -/
def osExists (cwd : String) (fs : FS) (p : String) : Bool :=
  (FS.find fs (abspath cwd p)).isSome

/-- `os.rename`: fails (raises) when the source is absent, otherwise
moves the entry onto the destination, replacing whatever was there. -/
def osRename (cwd : String) (fs : FS) (src dst : String) : Option FS :=
  match FS.find fs (abspath cwd src) with
  | none => none
  | some e => some (FS.set (FS.erase fs (abspath cwd src)) (abspath cwd dst) e)

/-- Read a file's content; directories and absent paths give `""`
(callers below only read files they have checked to exist). -/
def readFile (cwd : String) (fs : FS) (p : String) : String :=
  match FS.find fs (abspath cwd p) with
  | some (Entry.file c) => c
  | _ => ""

/-- `open(p, "a")` followed by a single write: appends to an existing
file, creates the file when absent. -/
def appendFile (cwd : String) (fs : FS) (p s : String) : FS :=
  match FS.find fs (abspath cwd p) with
  | some (Entry.file c) => FS.set fs (abspath cwd p) (Entry.file (c ++ s))
  | _ => FS.set fs (abspath cwd p) (Entry.file s)

/-- `ensure_trash(root)`: create the trash directory if absent, then
create the manifest with its single header line if absent; return the
trash directory path together with the updated filesystem. -/
def ensure_trash (cwd root : String) (fs : FS) : String × FS :=
  let trash := osPathJoin root TRASH_NAME
  let fs1 := if osExists cwd fs trash then fs else FS.set fs (abspath cwd trash) (Entry.dir "")
  let manifest := osPathJoin trash MANIFEST_NAME
  let fs2 := if osExists cwd fs1 manifest then fs1 else appendFile cwd fs1 manifest MANIFEST_HEADER
  (trash, fs2)

/-- The outcome of a command: its exit code, the last message printed,
and the filesystem it leaves behind. -/
structure CmdResult where
  exitCode : Nat
  msg : String
  fs : FS

/-- `cmd_rm(args)`: move the target into the trash under an
epoch-stamped name and only then append the manifest record. -/
def cmd_rm (target rootArg cwd : String) (epoch : Nat) (renameOk : Bool) (fs : FS) : CmdResult :=
  if ¬ osExists cwd fs target then
    { exitCode := 1, msg := "Error: not found: " ++ target, fs := fs }
  else
    let root := abspath cwd (if rootArg = "" then cwd else rootArg)
    let tfs := ensure_trash cwd root fs
    let trash := tfs.1
    let fs1 := tfs.2
    let base := osBasename (rstripSlash target)
    let trashed_name := toString epoch ++ "_" ++ base
    let dst := osPathJoin trash trashed_name
    if renameOk then
      match osRename cwd fs1 target dst with
      | none =>
        { exitCode := 1, msg := "Error: could not move to trash: <os error>", fs := fs1 }
      | some fs2 =>
        let manifest := osPathJoin trash MANIFEST_NAME
        let line := toString epoch ++ "\t" ++ trashed_name ++ "\t" ++ abspath cwd target ++ "\n"
        { exitCode := 0, msg := "Moved to trash: " ++ dst, fs := appendFile cwd fs2 manifest line }
    else
      { exitCode := 1, msg := "Error: could not move to trash: <os error>", fs := fs1 }

/-- The manifest lines `cmd_restore` collects: split the file into
lines, keep those that are non-blank after stripping and do not start
with `#`, stripped; file order (oldest first) is preserved. -/
def manifestLines (content : String) : List String :=
  (splitCh '\n' content.data).filterMap (fun l =>
    let ln := String.mk l
    if pyStrip ln ≠ "" ∧ ¬ pyStartsWith ln "#" then some (pyStrip ln) else none)

/-- The match test of the restore scan, on an already parsed record:
the original path ends in a separator followed by the fragment, or its
basename equals the fragment. -/
def recordMatches (name_tail original_path : String) : Bool :=
  pyEndsWith original_path ("/" ++ name_tail) || osBasename original_path == name_tail

/-- The body of `cmd_restore`'s backward scan, written as a recursion
over the reversed line list (newest record first).  Each line is split
with `split("\t", 2)`; anything but three fields is skipped; the first
matching record triggers the restore and ends the scan. -/
def restoreLoop (cwd trash name_tail : String) (renameOk : Bool) (fs : FS) :
    List String → CmdResult
  | [] =>
    { exitCode := 0, msg := "No trashed item ending with " ++ name_tail ++ " found.", fs := fs }
  | line :: rest =>
    match pySplitTab2 line with
    | [_, trashed_path, original_path] =>
      if recordMatches name_tail original_path then
        let dest :=
          if osExists cwd fs original_path then
            let ht := osSplit original_path
            let ne := osSplitext ht.2
            osPathJoin ht.1 (ne.1 ++ "_restored" ++ ne.2)
          else original_path
        let trashed1 :=
          if ¬ isAbs trashed_path then
            let candidate := osPathJoin trash trashed_path
            if osExists cwd fs candidate then candidate else trashed_path
          else trashed_path
        if ¬ osExists cwd fs trashed1 then
          { exitCode := 1, msg := "Sorry, the trashed file is missing:\n  " ++ trashed1, fs := fs }
        else if renameOk then
          match osRename cwd fs trashed1 dest with
          | none => { exitCode := 1, msg := "Error during restore: <os error>", fs := fs }
          | some fs2 => { exitCode := 0, msg := "Restored to: " ++ dest, fs := fs2 }
        else { exitCode := 1, msg := "Error during restore: <os error>", fs := fs }
      else restoreLoop cwd trash name_tail renameOk fs rest
    | _ => restoreLoop cwd trash name_tail renameOk fs rest

/-- `cmd_restore(args)`: ensure the trash exists, bail out politely if
the manifest is missing, otherwise scan the manifest newest-first. -/
def cmd_restore (name rootArg cwd : String) (renameOk : Bool) (fs : FS) : CmdResult :=
  let root := abspath cwd (if rootArg = "" then cwd else rootArg)
  let tfs := ensure_trash cwd root fs
  let trash := tfs.1
  let fs1 := tfs.2
  let manifest := osPathJoin trash MANIFEST_NAME
  if ¬ osExists cwd fs1 manifest then
    { exitCode := 0, msg := "Nothing to restore.", fs := fs1 }
  else
    let lines := manifestLines (readFile cwd fs1 manifest)
    restoreLoop cwd trash name renameOk fs1 lines.reverse

/-- Whether the restore scan would select a raw manifest line for the
given fragment: it parses into exactly three fields and the third
matches.  This is the guard of `restoreLoop`'s acting branch. -/
def lineSelected (name_tail line : String) : Bool :=
  match pySplitTab2 line with
  | [_, _, original_path] => recordMatches name_tail original_path
  | _ => false

/-- How many header/comment lines a manifest file content holds. -/
def headerLineCount (content : String) : Nat :=
  ((splitCh '\n' content.data).filter (fun l => pyStartsWith (String.mk l) "#")).length

/-! ### Generic lemmas: strings, splitting, and the filesystem map -/

theorem strMk_data (s : String) : String.mk s.data = s := by
  cases s
  rfl

theorem FS.find_erase_ne (fs : FS) (k k' : String) (h : ¬ k = k') :
    FS.find (FS.erase fs k) k' = FS.find fs k' := by
  induction fs with
  | nil => rfl
  | cons kv rest ih =>
    obtain ⟨k0, e0⟩ := kv
    by_cases h0 : k0 = k
    · subst h0
      simp [FS.erase, FS.find, h, ih]
    · simp [FS.erase, FS.find, h0, ih]

theorem FS.find_set_self (fs : FS) (k : String) (e : Entry) :
    FS.find (FS.set fs k e) k = some e := by
  simp [FS.set, FS.find]

theorem FS.find_set_ne (fs : FS) (k k' : String) (e : Entry) (h : ¬ k = k') :
    FS.find (FS.set fs k e) k' = FS.find fs k' := by
  simp [FS.set, FS.find, h, FS.find_erase_ne _ _ _ h]

theorem splitFirst_eq_none (c : Char) (a : List Char) (h : ∀ x ∈ a, ¬ x = c) :
    splitFirst c a = none := by
  induction a with
  | nil => rfl
  | cons x xs ih =>
    simp only [splitFirst, h x (by simp), if_false]
    rw [ih (fun y hy => h y (by simp [hy]))]

theorem splitFirst_append (c : Char) (a b : List Char) (h : ∀ x ∈ a, ¬ x = c) :
    splitFirst c (a ++ c :: b) = some (a, b) := by
  induction a with
  | nil => simp [splitFirst]
  | cons x xs ih =>
    have ih2 := ih (fun y hy => h y (by simp [hy]))
    rw [List.cons_append]
    simp only [splitFirst, h x (by simp), if_false]
    rw [ih2]

theorem pySplitTab2_of_clean (a b c : String)
    (ha : ∀ x ∈ a.data, ¬ x = '\t') (hb : ∀ x ∈ b.data, ¬ x = '\t') :
    pySplitTab2 (a ++ "\t" ++ b ++ "\t" ++ c) = [a, b, c] := by
  unfold pySplitTab2
  have hd : (a ++ "\t" ++ b ++ "\t" ++ c).data =
      a.data ++ '\t' :: (b.data ++ '\t' :: c.data) := by
    simp [String.data_append]
  rw [hd]
  simp only [splitFirst_append _ _ _ ha, splitFirst_append _ _ _ hb, strMk_data]

theorem pyStartsWith_eq_false_of_head (s : String) (p c : Char)
    (hc : s.data.head? = some c) (h : ¬ c = p) :
    pyStartsWith s (String.mk [p]) = false := by
  unfold pyStartsWith
  cases hd : s.data with
  | nil => rw [hd] at hc; simp at hc
  | cons x xs =>
    rw [hd] at hc
    injection hc with hx
    subst hx
    simp [List.isPrefixOf]
    intro he
    exact absurd he.symm h

theorem find_appendFile_ne (cwd : String) (fs : FS) (p s k : String)
    (h : ¬ abspath cwd p = k) : FS.find (appendFile cwd fs p s) k = FS.find fs k := by
  unfold appendFile
  cases hC : FS.find fs (abspath cwd p) with
  | none => simp [FS.find_set_ne _ _ _ _ h]
  | some e => cases e <;> simp [FS.find_set_ne _ _ _ _ h]

theorem find_appendFile_self_none (cwd : String) (fs : FS) (p s : String)
    (h : FS.find fs (abspath cwd p) = none) :
    FS.find (appendFile cwd fs p s) (abspath cwd p) = some (Entry.file s) := by
  unfold appendFile
  rw [h]
  simp [FS.find_set_self]

theorem appendFile_keeps_isSome (cwd : String) (fs : FS) (p s k : String)
    (h : (FS.find fs k).isSome) : (FS.find (appendFile cwd fs p s) k).isSome := by
  by_cases he : abspath cwd p = k
  · subst he
    unfold appendFile
    cases hC : FS.find fs (abspath cwd p) with
    | none => simp [FS.find_set_self]
    | some e => cases e <;> simp [FS.find_set_self]
  · rw [find_appendFile_ne _ _ _ _ _ he]
    exact h

theorem ensure_trash_fst (cwd root : String) (fs : FS) :
    (ensure_trash cwd root fs).1 = osPathJoin root TRASH_NAME := rfl

theorem ensure_trash_manifest_kept (cwd root : String) (fs : FS) (en : Entry)
    (h : FS.find fs (abspath cwd (osPathJoin (osPathJoin root TRASH_NAME) MANIFEST_NAME)) =
      some en) :
    FS.find (ensure_trash cwd root fs).2
      (abspath cwd (osPathJoin (osPathJoin root TRASH_NAME) MANIFEST_NAME)) = some en := by
  simp only [ensure_trash]
  by_cases hc1 : osExists cwd fs (osPathJoin root TRASH_NAME) = true
  · rw [if_pos hc1]
    have hc2 : osExists cwd fs (osPathJoin (osPathJoin root TRASH_NAME) MANIFEST_NAME) = true := by
      simp [osExists, h]
    rw [if_pos hc2]
    exact h
  · rw [if_neg hc1]
    have hnone : FS.find fs (abspath cwd (osPathJoin root TRASH_NAME)) = none := by
      rcases h' : FS.find fs (abspath cwd (osPathJoin root TRASH_NAME)) with _ | en2
      · rfl
      · exact absurd (by simp [osExists, h']) hc1
    have hne : ¬ abspath cwd (osPathJoin root TRASH_NAME) =
        abspath cwd (osPathJoin (osPathJoin root TRASH_NAME) MANIFEST_NAME) := by
      intro he
      rw [he, h] at hnone
      exact Option.noConfusion hnone
    have hfind : FS.find
        (FS.set fs (abspath cwd (osPathJoin root TRASH_NAME)) (Entry.dir ""))
        (abspath cwd (osPathJoin (osPathJoin root TRASH_NAME) MANIFEST_NAME)) = some en := by
      rw [FS.find_set_ne _ _ _ _ hne]
      exact h
    have hc2 : osExists cwd (FS.set fs (abspath cwd (osPathJoin root TRASH_NAME)) (Entry.dir ""))
        (osPathJoin (osPathJoin root TRASH_NAME) MANIFEST_NAME) = true := by
      simp [osExists, hfind]
    rw [if_pos hc2]
    exact hfind

theorem ensure_trash_manifest_created (cwd root : String) (fs : FS)
    (hk : ¬ abspath cwd (osPathJoin root TRASH_NAME) =
      abspath cwd (osPathJoin (osPathJoin root TRASH_NAME) MANIFEST_NAME))
    (h : FS.find fs (abspath cwd (osPathJoin (osPathJoin root TRASH_NAME) MANIFEST_NAME)) =
      none) :
    FS.find (ensure_trash cwd root fs).2
      (abspath cwd (osPathJoin (osPathJoin root TRASH_NAME) MANIFEST_NAME)) =
      some (Entry.file MANIFEST_HEADER) := by
  simp only [ensure_trash]
  by_cases hc1 : osExists cwd fs (osPathJoin root TRASH_NAME) = true
  · rw [if_pos hc1]
    have hc2 : ¬ osExists cwd fs (osPathJoin (osPathJoin root TRASH_NAME) MANIFEST_NAME) = true := by
      simp [osExists, h]
    rw [if_neg hc2]
    exact find_appendFile_self_none _ _ _ _ h
  · rw [if_neg hc1]
    have hfind : FS.find
        (FS.set fs (abspath cwd (osPathJoin root TRASH_NAME)) (Entry.dir ""))
        (abspath cwd (osPathJoin (osPathJoin root TRASH_NAME) MANIFEST_NAME)) = none := by
      rw [FS.find_set_ne _ _ _ _ hk]
      exact h
    have hc2 : ¬ osExists cwd
        (FS.set fs (abspath cwd (osPathJoin root TRASH_NAME)) (Entry.dir ""))
        (osPathJoin (osPathJoin root TRASH_NAME) MANIFEST_NAME) = true := by
      simp [osExists, hfind]
    rw [if_neg hc2]
    exact find_appendFile_self_none _ _ _ _ hfind

theorem ensure_trash_trash_isSome (cwd root : String) (fs : FS) :
    (FS.find (ensure_trash cwd root fs).2
      (abspath cwd (osPathJoin root TRASH_NAME))).isSome := by
  simp only [ensure_trash]
  by_cases hc1 : osExists cwd fs (osPathJoin root TRASH_NAME) = true
  · rw [if_pos hc1]
    have hT : (FS.find fs (abspath cwd (osPathJoin root TRASH_NAME))).isSome := by
      simpa [osExists] using hc1
    split
    · exact hT
    · exact appendFile_keeps_isSome _ _ _ _ _ hT
  · rw [if_neg hc1]
    have hT : (FS.find
        (FS.set fs (abspath cwd (osPathJoin root TRASH_NAME)) (Entry.dir ""))
        (abspath cwd (osPathJoin root TRASH_NAME))).isSome := by
      simp [FS.find_set_self]
    split
    · exact hT
    · exact appendFile_keeps_isSome _ _ _ _ _ hT

theorem ensure_trash_manifest_isSome (cwd root : String) (fs : FS) :
    (FS.find (ensure_trash cwd root fs).2
      (abspath cwd (osPathJoin (osPathJoin root TRASH_NAME) MANIFEST_NAME))).isSome := by
  cases hM : FS.find fs
      (abspath cwd (osPathJoin (osPathJoin root TRASH_NAME) MANIFEST_NAME)) with
  | some en =>
    rw [ensure_trash_manifest_kept cwd root fs en hM]
    rfl
  | none =>
    by_cases hk : abspath cwd (osPathJoin root TRASH_NAME) =
        abspath cwd (osPathJoin (osPathJoin root TRASH_NAME) MANIFEST_NAME)
    · simp only [ensure_trash]
      have hc1 : ¬ osExists cwd fs (osPathJoin root TRASH_NAME) = true := by
        simp only [osExists]
        rw [hk, hM]
        simp
      rw [if_neg hc1]
      have hsome : FS.find
          (FS.set fs (abspath cwd (osPathJoin root TRASH_NAME)) (Entry.dir ""))
          (abspath cwd (osPathJoin (osPathJoin root TRASH_NAME) MANIFEST_NAME)) =
          some (Entry.dir "") := by
        rw [← hk, FS.find_set_self]
      have hc2 : osExists cwd
          (FS.set fs (abspath cwd (osPathJoin root TRASH_NAME)) (Entry.dir ""))
          (osPathJoin (osPathJoin root TRASH_NAME) MANIFEST_NAME) = true := by
        simp [osExists, hsome]
      rw [if_pos hc2]
      simp [hsome]
    · rw [ensure_trash_manifest_created cwd root fs hk hM]
      rfl

theorem ensure_trash_idem (cwd root : String) (fs : FS) :
    (ensure_trash cwd root (ensure_trash cwd root fs).2).2 = (ensure_trash cwd root fs).2 := by
  have h1' : osExists cwd (ensure_trash cwd root fs).2 (osPathJoin root TRASH_NAME) = true := by
    simpa [osExists] using ensure_trash_trash_isSome cwd root fs
  have h2' : osExists cwd (ensure_trash cwd root fs).2
      (osPathJoin (osPathJoin root TRASH_NAME) MANIFEST_NAME) = true := by
    simpa [osExists] using ensure_trash_manifest_isSome cwd root fs
  conv_lhs => rw [ensure_trash]
  rw [if_pos h1', if_pos h2']

/-! ### Behaviour of the restore scan -/

theorem restoreLoop_skip (cwd trash name_tail : String) (renameOk : Bool) (fs : FS)
    (line : String) (rest : List String) (h : lineSelected name_tail line = false) :
    restoreLoop cwd trash name_tail renameOk fs (line :: rest) =
      restoreLoop cwd trash name_tail renameOk fs rest := by
  have h' := h
  unfold lineSelected at h'
  simp only [restoreLoop]
  cases hp : pySplitTab2 line with
  | nil => simp
  | cons a t1 =>
    cases t1 with
    | nil => simp
    | cons b t2 =>
      cases t2 with
      | nil => simp
      | cons c t3 =>
        cases t3 with
        | nil =>
          rw [hp] at h'
          simp only [] at h'
          simp [h']
        | cons d t4 => simp

theorem restoreLoop_first_match (cwd trash name_tail : String) (renameOk : Bool) (fs : FS)
    (line : String) (rest rest' : List String) (h : lineSelected name_tail line = true) :
    restoreLoop cwd trash name_tail renameOk fs (line :: rest) =
      restoreLoop cwd trash name_tail renameOk fs (line :: rest') := by
  have h' := h
  unfold lineSelected at h'
  simp only [restoreLoop]
  cases hp : pySplitTab2 line with
  | nil => rw [hp] at h'; simp at h'
  | cons a t1 =>
    cases t1 with
    | nil => rw [hp] at h'; simp at h'
    | cons b t2 =>
      cases t2 with
      | nil => rw [hp] at h'; simp at h'
      | cons c t3 =>
        cases t3 with
        | nil =>
          rw [hp] at h'
          simp only [] at h'
          simp [h']
        | cons d t4 => rw [hp] at h'; simp at h'

theorem cmd_restore_scan (name rootArg cwd : String) (renameOk : Bool) (fs : FS) (c : String)
    (hroot : ¬ rootArg = "")
    (hmf : FS.find (ensure_trash cwd (abspath cwd rootArg) fs).2
      (abspath cwd (osPathJoin (osPathJoin (abspath cwd rootArg) TRASH_NAME) MANIFEST_NAME)) =
      some (Entry.file c)) :
    cmd_restore name rootArg cwd renameOk fs =
      restoreLoop cwd (osPathJoin (abspath cwd rootArg) TRASH_NAME) name renameOk
        (ensure_trash cwd (abspath cwd rootArg) fs).2 (manifestLines c).reverse := by
  have hex : osExists cwd (ensure_trash cwd (abspath cwd rootArg) fs).2
      (osPathJoin (osPathJoin (abspath cwd rootArg) TRASH_NAME) MANIFEST_NAME) = true := by
    simp [osExists, hmf]
  have hread : readFile cwd (ensure_trash cwd (abspath cwd rootArg) fs).2
      (osPathJoin (osPathJoin (abspath cwd rootArg) TRASH_NAME) MANIFEST_NAME) = c := by
    unfold readFile
    rw [hmf]
  simp only [cmd_restore, hroot, if_false, ite_false, ensure_trash_fst, hex, hread]
  simp

/-! ### Claim theorems -/

/-- C8: `ensure_trash` is idempotent — iterating it any number of
times beyond the first changes nothing (it is a total function of the
state, so it never throws), and starting from a root without a
manifest it creates the manifest holding exactly the single header
line, so the manifest contains exactly one header line no matter how
many times `ensure_trash` is invoked. -/
theorem claim_C8_ensure_trash_idempotent (cwd root : String) (fs : FS) (n : Nat)
    (hk : ¬ abspath cwd (osPathJoin root TRASH_NAME) =
      abspath cwd (osPathJoin (osPathJoin root TRASH_NAME) MANIFEST_NAME))
    (hmf : FS.find fs (abspath cwd (osPathJoin (osPathJoin root TRASH_NAME) MANIFEST_NAME)) =
      none) :
    (fun s => (ensure_trash cwd root s).2)^[n + 1] fs = (ensure_trash cwd root fs).2 ∧
    FS.find (ensure_trash cwd root fs).2
        (abspath cwd (osPathJoin (osPathJoin root TRASH_NAME) MANIFEST_NAME)) =
      some (Entry.file MANIFEST_HEADER) ∧
    headerLineCount MANIFEST_HEADER = 1 := by
  refine ⟨?_, ensure_trash_manifest_created cwd root fs hk hmf, by decide⟩
  induction n with
  | zero => simp
  | succ m ih =>
    rw [Function.iterate_succ_apply', ih]
    simpa using ensure_trash_idem cwd root fs

/-- Closed instantiation of the C8 theorem at a concrete root. -/
theorem claim_C8_witness :
    (fun s => (ensure_trash "/w" "/r" s).2)^[3] [] = (ensure_trash "/w" "/r" []).2 ∧
    FS.find (ensure_trash "/w" "/r" []).2
        (abspath "/w" (osPathJoin (osPathJoin "/r" TRASH_NAME) MANIFEST_NAME)) =
      some (Entry.file MANIFEST_HEADER) ∧
    headerLineCount MANIFEST_HEADER = 1 :=
  claim_C8_ensure_trash_idempotent "/w" "/r" [] 2 (by decide) rfl

/-- C9: `cmd_restore` calls `ensure_trash` before the manifest check,
so a restore against a root with no trash directory creates the
`.trash` directory and a header-only manifest as a side effect of the
query, and the manifest-absent branch cannot then be taken: the run
ends in the no-match branch with exit code 0, not with the message of
the manifest-absent branch. -/
theorem claim_C9_restore_creates_trash (name rootArg cwd : String) (renameOk : Bool) (fs : FS)
    (TK MK : String)
    (hroot : ¬ rootArg = "")
    (hTK : TK = abspath cwd (osPathJoin (abspath cwd rootArg) TRASH_NAME))
    (hMK : MK = abspath cwd
      (osPathJoin (osPathJoin (abspath cwd rootArg) TRASH_NAME) MANIFEST_NAME))
    (hk : ¬ TK = MK)
    (hTR : FS.find fs TK = none)
    (hMF : FS.find fs MK = none) :
    (cmd_restore name rootArg cwd renameOk fs).exitCode = 0 ∧
    (cmd_restore name rootArg cwd renameOk fs).msg =
      "No trashed item ending with " ++ name ++ " found." ∧
    FS.find (cmd_restore name rootArg cwd renameOk fs).fs MK =
      some (Entry.file MANIFEST_HEADER) ∧
    (FS.find (cmd_restore name rootArg cwd renameOk fs).fs TK).isSome := by
  subst hTK
  subst hMK
  have hcreated := ensure_trash_manifest_created cwd (abspath cwd rootArg) fs hk hMF
  have htr := ensure_trash_trash_isSome cwd (abspath cwd rootArg) fs
  have hscan := cmd_restore_scan name rootArg cwd renameOk fs MANIFEST_HEADER hroot hcreated
  have hlines : manifestLines MANIFEST_HEADER = [] := by decide
  rw [hscan, hlines]
  simp only [List.reverse_nil, restoreLoop]
  exact ⟨trivial, trivial, hcreated, htr⟩

/-- Closed instantiation of the C9 theorem at a concrete root. -/
theorem claim_C9_witness :
    (cmd_restore "x.txt" "/r" "/w" true []).exitCode = 0 ∧
    (cmd_restore "x.txt" "/r" "/w" true []).msg =
      "No trashed item ending with " ++ "x.txt" ++ " found." ∧
    FS.find (cmd_restore "x.txt" "/r" "/w" true []).fs
      (abspath "/w" (osPathJoin (osPathJoin (abspath "/w" "/r") TRASH_NAME) MANIFEST_NAME)) =
      some (Entry.file MANIFEST_HEADER) ∧
    (FS.find (cmd_restore "x.txt" "/r" "/w" true []).fs
      (abspath "/w" (osPathJoin (abspath "/w" "/r") TRASH_NAME))).isSome :=
  claim_C9_restore_creates_trash "x.txt" "/r" "/w" true [] _ _ (by decide) rfl rfl
    (by decide) rfl rfl

/-- C2: with the rename into the trash failing, `cmd_rm` reports a
fatal error (exit code 1) and appends no manifest record: the
resulting state is exactly the `ensure_trash` state, a pre-existing
manifest binding is returned unchanged, and an absent manifest gains
only the header line.  The manifest append is guarded by the
successful-rename branch (move-then-log). -/
theorem claim_C2_move_then_log (target rootArg cwd : String) (epoch : Nat) (fs : FS)
    (MK : String)
    (hroot : ¬ rootArg = "")
    (hMK : MK = abspath cwd
      (osPathJoin (osPathJoin (abspath cwd rootArg) TRASH_NAME) MANIFEST_NAME))
    (hk : ¬ abspath cwd (osPathJoin (abspath cwd rootArg) TRASH_NAME) = MK)
    (htgt : osExists cwd fs target = true) :
    (cmd_rm target rootArg cwd epoch false fs).exitCode = 1 ∧
    (cmd_rm target rootArg cwd epoch false fs).fs =
      (ensure_trash cwd (abspath cwd rootArg) fs).2 ∧
    (∀ en, FS.find fs MK = some en →
      FS.find (cmd_rm target rootArg cwd epoch false fs).fs MK = some en) ∧
    (FS.find fs MK = none →
      FS.find (cmd_rm target rootArg cwd epoch false fs).fs MK =
        some (Entry.file MANIFEST_HEADER)) := by
  subst hMK
  have hrm : cmd_rm target rootArg cwd epoch false fs =
      { exitCode := 1, msg := "Error: could not move to trash: <os error>",
        fs := (ensure_trash cwd (abspath cwd rootArg) fs).2 } := by
    simp [cmd_rm, htgt, hroot]
  refine ⟨by rw [hrm], by rw [hrm], ?_, ?_⟩
  · intro en h
    rw [hrm]
    exact ensure_trash_manifest_kept cwd (abspath cwd rootArg) fs en h
  · intro h
    rw [hrm]
    exact ensure_trash_manifest_created cwd (abspath cwd rootArg) fs hk h

/-- Closed instantiation of the C2 theorem: a failing move yields exit
code 1 and a manifest holding only the header. -/
theorem claim_C2_witness :
    (cmd_rm "/a/f.txt" "/r" "/w" 5 false [("/a/f.txt", Entry.file "x")]).exitCode = 1 ∧
    FS.find (cmd_rm "/a/f.txt" "/r" "/w" 5 false [("/a/f.txt", Entry.file "x")]).fs
      (abspath "/w" (osPathJoin (osPathJoin (abspath "/w" "/r") TRASH_NAME) MANIFEST_NAME)) =
      some (Entry.file MANIFEST_HEADER) :=
  ⟨(claim_C2_move_then_log "/a/f.txt" "/r" "/w" 5 [("/a/f.txt", Entry.file "x")] _
      (by decide) rfl (by decide) (by decide)).1,
   (claim_C2_move_then_log "/a/f.txt" "/r" "/w" 5 [("/a/f.txt", Entry.file "x")] _
      (by decide) rfl (by decide) (by decide)).2.2.2 rfl⟩

/-- C3: the restore scan runs over the reversed order-preserved line
list, i.e. from the most recently appended record backwards: a line
that is malformed or whose original path does not match is skipped in
favour of the remaining (older) lines, while the first matching line
is acted upon without the older lines being consulted — so of two
matching records the most recently appended one is chosen;
`cmd_restore` invokes exactly this scan on the reversed manifest line
list. -/
theorem claim_C3_newest_first (cwd trash name : String) (renameOk : Bool) (fs : FS) :
    (∀ line rest, lineSelected name line = false →
      restoreLoop cwd trash name renameOk fs (line :: rest) =
        restoreLoop cwd trash name renameOk fs rest) ∧
    (∀ older lnew, lineSelected name lnew = true →
      restoreLoop cwd trash name renameOk fs ((older ++ [lnew]).reverse) =
        restoreLoop cwd trash name renameOk fs [lnew]) ∧
    (∀ (rootArg c : String), ¬ rootArg = "" →
      FS.find (ensure_trash cwd (abspath cwd rootArg) fs).2
        (abspath cwd (osPathJoin (osPathJoin (abspath cwd rootArg) TRASH_NAME) MANIFEST_NAME)) =
        some (Entry.file c) →
      cmd_restore name rootArg cwd renameOk fs =
        restoreLoop cwd (osPathJoin (abspath cwd rootArg) TRASH_NAME) name renameOk
          (ensure_trash cwd (abspath cwd rootArg) fs).2 (manifestLines c).reverse) := by
  refine ⟨restoreLoop_skip cwd trash name renameOk fs, ?_, ?_⟩
  · intro older lnew h
    rw [List.reverse_append]
    simp only [List.reverse_cons, List.reverse_nil, List.nil_append, List.cons_append,
      List.singleton_append]
    exact restoreLoop_first_match cwd trash name renameOk fs lnew _ _ h
  · intro rootArg c hr hm
    exact cmd_restore_scan name rootArg cwd renameOk fs c hr hm

/-- Closed instantiation of the C3 theorem: a malformed line is
skipped, and of two records for basename `a` the newer one is acted
on first. -/
theorem claim_C3_witness :
    (restoreLoop "/w" "/t" "a" true [] ("junk" :: ["9\tx\t/q/a"]) =
      restoreLoop "/w" "/t" "a" true [] ["9\tx\t/q/a"]) ∧
    (restoreLoop "/w" "/t" "a" true [] ((["1\tt1\t/p/a"] ++ ["2\tt2\t/q/a"]).reverse) =
      restoreLoop "/w" "/t" "a" true [] ["2\tt2\t/q/a"]) ∧
    (cmd_restore "a" "/r" "/w" true
        [(abspath "/w" (osPathJoin (osPathJoin (abspath "/w" "/r") TRASH_NAME) MANIFEST_NAME),
          Entry.file "# epoch\ttrashed_path\toriginal_abs_path\n9\tx\t/q/b\n")] =
      restoreLoop "/w" (osPathJoin (abspath "/w" "/r") TRASH_NAME) "a" true
        (ensure_trash "/w" (abspath "/w" "/r")
          [(abspath "/w" (osPathJoin (osPathJoin (abspath "/w" "/r") TRASH_NAME) MANIFEST_NAME),
            Entry.file "# epoch\ttrashed_path\toriginal_abs_path\n9\tx\t/q/b\n")]).2
        (manifestLines "# epoch\ttrashed_path\toriginal_abs_path\n9\tx\t/q/b\n").reverse) :=
  ⟨(claim_C3_newest_first "/w" "/t" "a" true []).1 "junk" ["9\tx\t/q/a"] (by decide),
   (claim_C3_newest_first "/w" "/t" "a" true []).2.1 ["1\tt1\t/p/a"] "2\tt2\t/q/a" (by decide),
   (claim_C3_newest_first "/w" "/t" "a" true _).2.2 "/r"
     "# epoch\ttrashed_path\toriginal_abs_path\n9\tx\t/q/b\n" (by decide) (by decide)⟩

/-- C5 counterexample: this line has four tab-separated fields, yet
the restore scan does not treat it as malformed: `split("\t", 2)`
folds the extra tab into the third field, the record matches the
fragment and the scan acts on it (here failing with the
missing-trashed-file error, exit code 1) instead of falling through
to the no-match outcome (exit code 0) that skipping it would give. -/
theorem claim_C5_counterexample :
    (splitCh '\t' ("9\tx\t/r/a\td").data).length = 4 ∧
    pySplitTab2 "9\tx\t/r/a\td" = ["9", "x", "/r/a\td"] ∧
    (restoreLoop "/w" "/t" "a\td" true [] ["9\tx\t/r/a\td"]).exitCode = 1 ∧
    (restoreLoop "/w" "/t" "a\td" true [] []).exitCode = 0 := by
  refine ⟨by decide, by decide, by decide, by decide⟩

/-- C5 amended: `split("\t", 2)` yields between one and three fields;
a line with fewer than three tab-separated fields is malformed and
skipped by the restore scan without aborting the processing of the
remaining lines, while a line with three or more tab-separated fields
parses into exactly three fields, tabs beyond the second being
retained inside the third field — such a line is not skipped. -/
theorem claim_C5_amended (cwd trash name : String) (renameOk : Bool) (fs : FS) :
    (∀ line, 1 ≤ (pySplitTab2 line).length ∧ (pySplitTab2 line).length ≤ 3) ∧
    (∀ line rest, (pySplitTab2 line).length ≤ 2 →
      restoreLoop cwd trash name renameOk fs (line :: rest) =
        restoreLoop cwd trash name renameOk fs rest) ∧
    (∀ a b c : String, (∀ x ∈ a.data, ¬ x = '\t') → (∀ x ∈ b.data, ¬ x = '\t') →
      pySplitTab2 (a ++ "\t" ++ b ++ "\t" ++ c) = [a, b, c]) := by
  refine ⟨?_, ?_, fun a b c ha hb => pySplitTab2_of_clean a b c ha hb⟩
  · intro line
    unfold pySplitTab2
    cases h1 : splitFirst '\t' line.data with
    | none => simp
    | some p =>
      obtain ⟨x, y⟩ := p
      cases h2 : splitFirst '\t' y with
      | none => simp [h2]
      | some q =>
        obtain ⟨u, v⟩ := q
        simp [h2]
  · intro line rest hlen
    have hsel : lineSelected name line = false := by
      unfold lineSelected
      cases hp : pySplitTab2 line with
      | nil => rfl
      | cons a t1 =>
        cases t1 with
        | nil => rfl
        | cons b t2 =>
          cases t2 with
          | nil => rfl
          | cons c t3 =>
            cases t3 with
            | nil => rw [hp] at hlen; simp at hlen
            | cons d t4 => rfl
    exact restoreLoop_skip _ _ _ _ _ _ _ hsel

/-- Closed instantiation of the amended C5 theorem: a two-field line
is skipped without aborting the scan, and a four-field line parses to
three fields with the tab kept in the third. -/
theorem claim_C5_amended_witness :
    (1 ≤ (pySplitTab2 "1\tz").length ∧ (pySplitTab2 "1\tz").length ≤ 3) ∧
    (restoreLoop "/w" "/t" "a" true [] ("1\tz" :: ["9\tx\t/q/a"]) =
      restoreLoop "/w" "/t" "a" true [] ["9\tx\t/q/a"]) ∧
    pySplitTab2 ("1" ++ "\t" ++ "x" ++ "\t" ++ "/r/a\td") = ["1", "x", "/r/a\td"] :=
  ⟨(claim_C5_amended "/w" "/t" "a" true []).1 "1\tz",
   (claim_C5_amended "/w" "/t" "a" true []).2.1 "1\tz" ["9\tx\t/q/a"] (by decide),
   (claim_C5_amended "/w" "/t" "a" true []).2.2 "1" "x" "/r/a\td" (by decide) (by decide)⟩

/-- C7: when the selected record's trashed item does not exist on disk
— a non-absolute legacy trashed path being first resolved against the
trash directory and adopted only if that candidate exists — the
restore fails with the distinct missing-trashed-file message and exit
code 1, leaving the filesystem untouched: no crash and no rename. -/
theorem claim_C7_missing_trashed (cwd trash name : String) (renameOk : Bool) (fs : FS)
    (line : String) (rest : List String) (e_s t_p o_p : String)
    (hsplit : pySplitTab2 line = [e_s, t_p, o_p])
    (hmatch : recordMatches name o_p = true) :
    (isAbs t_p = false →
      osExists cwd fs (osPathJoin trash t_p) = false →
      osExists cwd fs t_p = false →
      restoreLoop cwd trash name renameOk fs (line :: rest) =
        { exitCode := 1, msg := "Sorry, the trashed file is missing:\n  " ++ t_p, fs := fs }) ∧
    (isAbs t_p = true →
      osExists cwd fs t_p = false →
      restoreLoop cwd trash name renameOk fs (line :: rest) =
        { exitCode := 1, msg := "Sorry, the trashed file is missing:\n  " ++ t_p,
          fs := fs }) := by
  constructor
  · intro habs hcand hex
    simp only [restoreLoop, hsplit]
    simp [hmatch, habs, hcand, hex]
  · intro habs hex
    simp only [restoreLoop, hsplit]
    simp [hmatch, habs, hex]

/-- Closed instantiation of the C7 theorem: a stale legacy record and
a stale absolute record both fail with the distinct message. -/
theorem claim_C7_witness :
    (restoreLoop "/w" "/t" "a" true [] ("9\tx\t/q/a" :: []) =
      { exitCode := 1, msg := "Sorry, the trashed file is missing:\n  " ++ "x", fs := [] }) ∧
    (restoreLoop "/w" "/t" "a" true [] ("9\t/t/x\t/q/a" :: []) =
      { exitCode := 1, msg := "Sorry, the trashed file is missing:\n  " ++ "/t/x",
        fs := [] }) :=
  ⟨(claim_C7_missing_trashed "/w" "/t" "a" true [] "9\tx\t/q/a" [] "9" "x" "/q/a"
      (by decide) (by decide)).1 (by decide) (by decide) (by decide),
   (claim_C7_missing_trashed "/w" "/t" "a" true [] "9\t/t/x\t/q/a" [] "9" "/t/x" "/q/a"
      (by decide) (by decide)).2 (by decide) (by decide)⟩

/-- C10: the `_restored` suffix is applied at most once: with entries
both at the original path and at the suffixed destination, the scan
renames the trashed item — whether its recorded path is the relative
epoch-prefixed name that `cmd_rm` writes, resolved against the trash
directory like every legacy short record, or an absolute path — onto
the suffixed destination with no further existence check, so the
entry previously at the suffixed path is replaced by the restored
item. -/
theorem claim_C10_suffix_once (cwd trash name : String) (fs : FS)
    (line : String) (rest : List String) (e_s t_p o_p dest : String) (e_t : Entry)
    (hsplit : pySplitTab2 line = [e_s, t_p, o_p])
    (hmatch : recordMatches name o_p = true)
    (hcoll : osExists cwd fs o_p = true)
    (hdest : dest = osPathJoin (osSplit o_p).1
      ((osSplitext (osSplit o_p).2).1 ++ "_restored" ++ (osSplitext (osSplit o_p).2).2))
    (hde : (FS.find fs (abspath cwd dest)).isSome) :
    (isAbs t_p = false →
      FS.find fs (abspath cwd (osPathJoin trash t_p)) = some e_t →
      restoreLoop cwd trash name true fs (line :: rest) =
        { exitCode := 0, msg := "Restored to: " ++ dest,
          fs := FS.set (FS.erase fs (abspath cwd (osPathJoin trash t_p)))
            (abspath cwd dest) e_t } ∧
      FS.find (FS.set (FS.erase fs (abspath cwd (osPathJoin trash t_p)))
        (abspath cwd dest) e_t) (abspath cwd dest) = some e_t) ∧
    (isAbs t_p = true →
      FS.find fs (abspath cwd t_p) = some e_t →
      restoreLoop cwd trash name true fs (line :: rest) =
        { exitCode := 0, msg := "Restored to: " ++ dest,
          fs := FS.set (FS.erase fs (abspath cwd t_p)) (abspath cwd dest) e_t } ∧
      FS.find (FS.set (FS.erase fs (abspath cwd t_p)) (abspath cwd dest) e_t)
        (abspath cwd dest) = some e_t) := by
  subst hdest
  constructor
  · intro habs htr
    refine ⟨?_, FS.find_set_self _ _ _⟩
    have hexc : osExists cwd fs (osPathJoin trash t_p) = true := by simp [osExists, htr]
    simp only [restoreLoop, hsplit]
    simp [hmatch, hcoll, habs, hexc, osRename, htr]
  · intro habs htr
    refine ⟨?_, FS.find_set_self _ _ _⟩
    have hex : osExists cwd fs t_p = true := by simp [osExists, htr]
    simp only [restoreLoop, hsplit]
    simp [hmatch, hcoll, habs, hex, osRename, htr]

/-- Closed instantiation of the C10 theorem at a record exactly as
`cmd_rm` writes it (relative `9_r.txt`, resolved against the trash
directory) and at an absolute record: in both runs the entry at
`/q/r_restored.txt` is replaced by the trashed one. -/
theorem claim_C10_witness :
    (restoreLoop "/w" "/t" "r.txt" true
      [("/q/r.txt", Entry.file "new"), ("/q/r_restored.txt", Entry.file "old"),
        ("/t/9_r.txt", Entry.file "trashed")]
      ("9\t9_r.txt\t/q/r.txt" :: []) =
      { exitCode := 0, msg := "Restored to: " ++ "/q/r_restored.txt",
        fs := FS.set (FS.erase
          [("/q/r.txt", Entry.file "new"), ("/q/r_restored.txt", Entry.file "old"),
            ("/t/9_r.txt", Entry.file "trashed")]
          (abspath "/w" (osPathJoin "/t" "9_r.txt")))
          (abspath "/w" "/q/r_restored.txt") (Entry.file "trashed") } ∧
     FS.find (FS.set (FS.erase
        [("/q/r.txt", Entry.file "new"), ("/q/r_restored.txt", Entry.file "old"),
          ("/t/9_r.txt", Entry.file "trashed")]
        (abspath "/w" (osPathJoin "/t" "9_r.txt")))
        (abspath "/w" "/q/r_restored.txt") (Entry.file "trashed"))
      (abspath "/w" "/q/r_restored.txt") = some (Entry.file "trashed")) ∧
    (restoreLoop "/w" "/t" "r.txt" true
      [("/q/r.txt", Entry.file "new"), ("/q/r_restored.txt", Entry.file "old"),
        ("/t/x", Entry.file "trashed")]
      ("9\t/t/x\t/q/r.txt" :: []) =
      { exitCode := 0, msg := "Restored to: " ++ "/q/r_restored.txt",
        fs := FS.set (FS.erase
          [("/q/r.txt", Entry.file "new"), ("/q/r_restored.txt", Entry.file "old"),
            ("/t/x", Entry.file "trashed")] (abspath "/w" "/t/x"))
          (abspath "/w" "/q/r_restored.txt") (Entry.file "trashed") } ∧
     FS.find (FS.set (FS.erase
        [("/q/r.txt", Entry.file "new"), ("/q/r_restored.txt", Entry.file "old"),
          ("/t/x", Entry.file "trashed")] (abspath "/w" "/t/x"))
        (abspath "/w" "/q/r_restored.txt") (Entry.file "trashed"))
      (abspath "/w" "/q/r_restored.txt") = some (Entry.file "trashed")) :=
  ⟨(claim_C10_suffix_once "/w" "/t" "r.txt"
      [("/q/r.txt", Entry.file "new"), ("/q/r_restored.txt", Entry.file "old"),
        ("/t/9_r.txt", Entry.file "trashed")]
      "9\t9_r.txt\t/q/r.txt" [] "9" "9_r.txt" "/q/r.txt" "/q/r_restored.txt"
      (Entry.file "trashed")
      (by decide) (by decide) (by decide) (by decide) (by decide)).1
      (by decide) (by decide),
   (claim_C10_suffix_once "/w" "/t" "r.txt"
      [("/q/r.txt", Entry.file "new"), ("/q/r_restored.txt", Entry.file "old"),
        ("/t/x", Entry.file "trashed")]
      "9\t/t/x\t/q/r.txt" [] "9" "/t/x" "/q/r.txt" "/q/r_restored.txt"
      (Entry.file "trashed")
      (by decide) (by decide) (by decide) (by decide) (by decide)).2
      (by decide) (by decide)⟩


theorem osSplit_tail_no_slash (p : String) : ∀ x ∈ (osSplit p).2.data, ¬ x = '/' := by
  intro x hx
  have hmem : x ∈ p.data.reverse.takeWhile (fun c => decide (¬ c = '/')) := by
    have hdata : (osSplit p).2.data =
        (p.data.reverse.takeWhile (fun c => decide (¬ c = '/'))).reverse := rfl
    rw [hdata, List.mem_reverse] at hx
    exact hx
  have := List.mem_takeWhile_imp hmem
  simpa using this

theorem osSplitext_concat (q : String) : (osSplitext q).1 ++ (osSplitext q).2 = q := by
  cases h1 : lastIdxOf '.' q.data with
  | none => simp [osSplitext, h1]
  | some d =>
    simp only [osSplitext, h1]
    by_cases hc : extSepBound q.data ≤ d ∧
        ((q.data.drop (extSepBound q.data)).take (d - extSepBound q.data)).any
          (fun c => decide (¬ c = '.')) = true
    · rw [if_pos hc]
      apply String.ext
      rw [String.data_append]
      exact List.take_append_drop d q.data
    · rw [if_neg hc]
      simp

theorem osSplitext_fst_subset (q : String) : ∀ x ∈ (osSplitext q).1.data, x ∈ q.data := by
  cases h1 : lastIdxOf '.' q.data with
  | none => simp only [osSplitext, h1]; intro x hx; exact hx
  | some d =>
    simp only [osSplitext, h1]
    by_cases hc : extSepBound q.data ≤ d ∧
        ((q.data.drop (extSepBound q.data)).take (d - extSepBound q.data)).any
          (fun c => decide (¬ c = '.')) = true
    · rw [if_pos hc]
      intro x hx
      exact List.take_subset _ _ hx
    · rw [if_neg hc]
      intro x hx
      exact hx

theorem suffixed_not_abs (q : String) (hq : ∀ x ∈ q.data, ¬ x = '/') :
    isAbs ((osSplitext q).1 ++ "_restored" ++ (osSplitext q).2) = false := by
  have hd1 : ((osSplitext q).1 ++ "_restored" ++ (osSplitext q).2).data =
      (osSplitext q).1.data ++ ("_restored".data ++ (osSplitext q).2.data) := by
    simp [String.data_append]
  cases hnm : (osSplitext q).1.data with
  | nil =>
    apply pyStartsWith_eq_false_of_head _ '/' '_'
    · rw [hd1, hnm, List.nil_append, List.head?_append]
      rfl
    · decide
  | cons c cs =>
    apply pyStartsWith_eq_false_of_head _ '/' c
    · rw [hd1, hnm, List.cons_append]
      rfl
    · exact hq c (osSplitext_fst_subset q c (by rw [hnm]; simp))

theorem suffixed_join_ne (o_p : String)
    (hshape : o_p = (osSplit o_p).1 ++ "/" ++ (osSplit o_p).2 ∨
      (pyEndsWith (osSplit o_p).1 "/" = true ∧ o_p = (osSplit o_p).1 ++ (osSplit o_p).2)) :
    ¬ osPathJoin (osSplit o_p).1
      ((osSplitext (osSplit o_p).2).1 ++ "_restored" ++ (osSplitext (osSplit o_p).2).2) =
      o_p := by
  intro heq
  have h9 : ("_restored" : String).length = 9 := rfl
  have hs1 : ("/" : String).length = 1 := rfl
  have hcat := osSplitext_concat (osSplit o_p).2
  have hlen_tl : (osSplitext (osSplit o_p).2).1.length +
      (osSplitext (osSplit o_p).2).2.length = (osSplit o_p).2.length := by
    conv_rhs => rw [← hcat]
    rw [String.length_append]
  have habs := suffixed_not_abs (osSplit o_p).2 (osSplit_tail_no_slash o_p)
  unfold osPathJoin at heq
  rw [habs] at heq
  simp only [Bool.false_eq_true, if_false] at heq
  by_cases hb : (osSplit o_p).1 = "" ∨ pyEndsWith (osSplit o_p).1 "/" = true
  · rw [if_pos hb] at heq
    have hl := congrArg String.length heq
    simp only [String.length_append, h9] at hl
    rcases hshape with h | ⟨hsep, h⟩
    · have hol := congrArg String.length h
      simp only [String.length_append, hs1] at hol
      omega
    · have hol := congrArg String.length h
      simp only [String.length_append] at hol
      omega
  · rw [if_neg hb] at heq
    have hl := congrArg String.length heq
    simp only [String.length_append, h9, hs1] at hl
    rcases hshape with h | ⟨hsep, h⟩
    · have hol := congrArg String.length h
      simp only [String.length_append, hs1] at hol
      omega
    · exact hb (Or.inr hsep)

/-- C4: when an entry occupies the selected record's original path,
the destination is rewritten by inserting the fixed `_restored`
suffix between the final component's name and its extension
(directory and extension preserved), and the occupying entry is never
overwritten — it is still bound, unchanged, to the original path
after the restore completes.  This holds both for the relative
epoch-prefixed records that `cmd_rm` writes (resolved against the
trash directory like every legacy short record) and for absolute
records. -/
theorem claim_C4_collision_suffix (cwd trash name : String) (fs : FS)
    (line : String) (rest : List String) (e_s t_p o_p : String) (e_t : Entry)
    (hsplit : pySplitTab2 line = [e_s, t_p, o_p])
    (hmatch : recordMatches name o_p = true)
    (hcoll : osExists cwd fs o_p = true)
    (habs_d : abspath cwd (osPathJoin (osSplit o_p).1
      ((osSplitext (osSplit o_p).2).1 ++ "_restored" ++ (osSplitext (osSplit o_p).2).2)) =
      osPathJoin (osSplit o_p).1
        ((osSplitext (osSplit o_p).2).1 ++ "_restored" ++ (osSplitext (osSplit o_p).2).2))
    (hshape : o_p = (osSplit o_p).1 ++ "/" ++ (osSplit o_p).2 ∨
      (pyEndsWith (osSplit o_p).1 "/" = true ∧ o_p = (osSplit o_p).1 ++ (osSplit o_p).2)) :
    (isAbs t_p = false →
      FS.find fs (abspath cwd (osPathJoin trash t_p)) = some e_t →
      ¬ abspath cwd (osPathJoin trash t_p) = o_p →
      (restoreLoop cwd trash name true fs (line :: rest)).exitCode = 0 ∧
      (restoreLoop cwd trash name true fs (line :: rest)).msg =
        "Restored to: " ++ osPathJoin (osSplit o_p).1
          ((osSplitext (osSplit o_p).2).1 ++ "_restored" ++
            (osSplitext (osSplit o_p).2).2) ∧
      FS.find (restoreLoop cwd trash name true fs (line :: rest)).fs o_p =
        FS.find fs o_p) ∧
    (isAbs t_p = true →
      FS.find fs (abspath cwd t_p) = some e_t →
      ¬ abspath cwd t_p = o_p →
      (restoreLoop cwd trash name true fs (line :: rest)).exitCode = 0 ∧
      (restoreLoop cwd trash name true fs (line :: rest)).msg =
        "Restored to: " ++ osPathJoin (osSplit o_p).1
          ((osSplitext (osSplit o_p).2).1 ++ "_restored" ++
            (osSplitext (osSplit o_p).2).2) ∧
      FS.find (restoreLoop cwd trash name true fs (line :: rest)).fs o_p =
        FS.find fs o_p) := by
  have hne_d : ¬ abspath cwd (osPathJoin (osSplit o_p).1
      ((osSplitext (osSplit o_p).2).1 ++ "_restored" ++ (osSplitext (osSplit o_p).2).2)) =
      o_p := by
    rw [habs_d]
    exact suffixed_join_ne o_p hshape
  constructor
  · intro habs htr htp_ne
    have hexc : osExists cwd fs (osPathJoin trash t_p) = true := by simp [osExists, htr]
    have hloop : restoreLoop cwd trash name true fs (line :: rest) =
        { exitCode := 0,
          msg := "Restored to: " ++ osPathJoin (osSplit o_p).1
            ((osSplitext (osSplit o_p).2).1 ++ "_restored" ++
              (osSplitext (osSplit o_p).2).2),
          fs := FS.set (FS.erase fs (abspath cwd (osPathJoin trash t_p)))
            (abspath cwd (osPathJoin (osSplit o_p).1
              ((osSplitext (osSplit o_p).2).1 ++ "_restored" ++
                (osSplitext (osSplit o_p).2).2))) e_t } := by
      simp only [restoreLoop, hsplit]
      simp [hmatch, hcoll, habs, hexc, osRename, htr]
    rw [hloop]
    refine ⟨rfl, rfl, ?_⟩
    show FS.find (FS.set (FS.erase fs (abspath cwd (osPathJoin trash t_p))) _ e_t) o_p =
      FS.find fs o_p
    rw [FS.find_set_ne _ _ _ _ hne_d, FS.find_erase_ne _ _ _ htp_ne]
  · intro habs htr htp_ne
    have hex : osExists cwd fs t_p = true := by simp [osExists, htr]
    have hloop : restoreLoop cwd trash name true fs (line :: rest) =
        { exitCode := 0,
          msg := "Restored to: " ++ osPathJoin (osSplit o_p).1
            ((osSplitext (osSplit o_p).2).1 ++ "_restored" ++
              (osSplitext (osSplit o_p).2).2),
          fs := FS.set (FS.erase fs (abspath cwd t_p))
            (abspath cwd (osPathJoin (osSplit o_p).1
              ((osSplitext (osSplit o_p).2).1 ++ "_restored" ++
                (osSplitext (osSplit o_p).2).2))) e_t } := by
      simp only [restoreLoop, hsplit]
      simp [hmatch, hcoll, habs, hex, osRename, htr]
    rw [hloop]
    refine ⟨rfl, rfl, ?_⟩
    show FS.find (FS.set (FS.erase fs (abspath cwd t_p)) _ e_t) o_p = FS.find fs o_p
    rw [FS.find_set_ne _ _ _ _ hne_d, FS.find_erase_ne _ _ _ htp_ne]

/-- Closed instantiation of the C4 theorem at a record exactly as
`cmd_rm` writes it (relative `9_r.txt`) and at an absolute record:
restoring `r.txt` while `/q/r.txt` is occupied goes to
`/q/r_restored.txt` and leaves the occupant in place both times. -/
theorem claim_C4_witness :
    ((restoreLoop "/w" "/t" "r.txt" true
      [("/q/r.txt", Entry.file "new"), ("/t/9_r.txt", Entry.file "trashed")]
      ("9\t9_r.txt\t/q/r.txt" :: [])).exitCode = 0 ∧
     (restoreLoop "/w" "/t" "r.txt" true
      [("/q/r.txt", Entry.file "new"), ("/t/9_r.txt", Entry.file "trashed")]
      ("9\t9_r.txt\t/q/r.txt" :: [])).msg =
      "Restored to: " ++ osPathJoin (osSplit "/q/r.txt").1
        ((osSplitext (osSplit "/q/r.txt").2).1 ++ "_restored" ++
          (osSplitext (osSplit "/q/r.txt").2).2) ∧
     FS.find (restoreLoop "/w" "/t" "r.txt" true
      [("/q/r.txt", Entry.file "new"), ("/t/9_r.txt", Entry.file "trashed")]
      ("9\t9_r.txt\t/q/r.txt" :: [])).fs "/q/r.txt" =
      FS.find [("/q/r.txt", Entry.file "new"), ("/t/9_r.txt", Entry.file "trashed")]
        "/q/r.txt") ∧
    ((restoreLoop "/w" "/t" "r.txt" true
      [("/q/r.txt", Entry.file "new"), ("/t/x", Entry.file "trashed")]
      ("9\t/t/x\t/q/r.txt" :: [])).exitCode = 0 ∧
     (restoreLoop "/w" "/t" "r.txt" true
      [("/q/r.txt", Entry.file "new"), ("/t/x", Entry.file "trashed")]
      ("9\t/t/x\t/q/r.txt" :: [])).msg =
      "Restored to: " ++ osPathJoin (osSplit "/q/r.txt").1
        ((osSplitext (osSplit "/q/r.txt").2).1 ++ "_restored" ++
          (osSplitext (osSplit "/q/r.txt").2).2) ∧
     FS.find (restoreLoop "/w" "/t" "r.txt" true
      [("/q/r.txt", Entry.file "new"), ("/t/x", Entry.file "trashed")]
      ("9\t/t/x\t/q/r.txt" :: [])).fs "/q/r.txt" =
      FS.find [("/q/r.txt", Entry.file "new"), ("/t/x", Entry.file "trashed")]
        "/q/r.txt") :=
  ⟨(claim_C4_collision_suffix "/w" "/t" "r.txt"
      [("/q/r.txt", Entry.file "new"), ("/t/9_r.txt", Entry.file "trashed")]
      "9\t9_r.txt\t/q/r.txt" [] "9" "9_r.txt" "/q/r.txt" (Entry.file "trashed")
      (by decide) (by decide) (by decide) (by decide) (by decide)).1
      (by decide) (by decide) (by decide),
   (claim_C4_collision_suffix "/w" "/t" "r.txt"
      [("/q/r.txt", Entry.file "new"), ("/t/x", Entry.file "trashed")]
      "9\t/t/x\t/q/r.txt" [] "9" "/t/x" "/q/r.txt" (Entry.file "trashed")
      (by decide) (by decide) (by decide) (by decide) (by decide)).2
      (by decide) (by decide) (by decide)⟩


